import Mathlib

/-!
Verification development for the fontsync repository.

Shallow embedding of the core logic of the sources:
  src/utils.rs, src/client.rs, src/websocket_client.rs,
  src/websocket_server.rs, src/font_monitor.rs.

File system and network effects are passed in explicitly (file contents,
fetch results, directory listings, event traces); byte values are natural
numbers below 256, 32-bit machine arithmetic is Nat arithmetic reduced
modulo 2^32.
-/

set_option maxRecDepth 4096

/-! ## SHA-256 (the sha2 crate used by utils::calculate_sha256) -/

/-- 32-bit right rotation; inputs and outputs are below 2^32. -/
def rotr32 (n x : Nat) : Nat :=
  ((x >>> n) ||| ((x <<< (32 - n)) % 4294967296)) % 4294967296

def sha256Ch (x y z : Nat) : Nat :=
  (x &&& y) ^^^ ((x ^^^ 4294967295) &&& z)

def sha256Maj (x y z : Nat) : Nat :=
  (x &&& y) ^^^ (x &&& z) ^^^ (y &&& z)

def smallSigma0 (x : Nat) : Nat := (rotr32 7 x) ^^^ (rotr32 18 x) ^^^ (x >>> 3)

def smallSigma1 (x : Nat) : Nat := (rotr32 17 x) ^^^ (rotr32 19 x) ^^^ (x >>> 10)

def bigSigma0 (x : Nat) : Nat := (rotr32 2 x) ^^^ (rotr32 13 x) ^^^ (rotr32 22 x)

def bigSigma1 (x : Nat) : Nat := (rotr32 6 x) ^^^ (rotr32 11 x) ^^^ (rotr32 25 x)

/-- The 64 SHA-256 round constants of FIPS 180-4, as decimal numerals. -/
def sha256K : List Nat :=
  [1116352408, 1899447441, 3049323471, 3921009573, 961987163, 1508970993,
   2453635748, 2870763221, 3624381080, 310598401, 607225278, 1426881987,
   1925078388, 2162078206, 2614888103, 3248222580, 3835390401, 4022224774,
   264347078, 604807628, 770255983, 1249150122, 1555081692, 1996064986,
   2554220882, 2821834349, 2952996808, 3210313671, 3336571891, 3584528711,
   113926993, 338241895, 666307205, 773529912, 1294757372, 1396182291,
   1695183700, 1986661051, 2177026350, 2456956037, 2730485921, 2820302411,
   3259730800, 3345764771, 3516065817, 3600352804, 4094571909, 275423344,
   430227734, 506948616, 659060556, 883997877, 958139571, 1322822218,
   1537002063, 1747873779, 1955562222, 2024104815, 2227730452, 2361852424,
   2428436474, 2756734187, 3204031479, 3329325298]

/-- Running hash value: the eight 32-bit words of the SHA-256 state. -/
structure Sha256Digest where
  d0 : Nat
  d1 : Nat
  d2 : Nat
  d3 : Nat
  d4 : Nat
  d5 : Nat
  d6 : Nat
  d7 : Nat
deriving Repr, DecidableEq

/-- The eight SHA-256 initial hash values of FIPS 180-4, as decimal
numerals. -/
def sha256InitialDigest : Sha256Digest :=
  ⟨1779033703, 3144134277, 1013904242, 2773480762, 1359893119, 2600822924, 528734635, 1541459225⟩

/-- The eight working registers of the compression function. -/
structure Sha256Regs where
  a : Nat
  b : Nat
  c : Nat
  d : Nat
  e : Nat
  f : Nat
  g : Nat
  h : Nat
deriving Repr, DecidableEq

def regsOfDigest (dg : Sha256Digest) : Sha256Regs :=
  ⟨dg.d0, dg.d1, dg.d2, dg.d3, dg.d4, dg.d5, dg.d6, dg.d7⟩

/-- One round of the SHA-256 compression function; `kw` is the pair of the
round constant and the scheduled message word. -/
def sha256Round (st : Sha256Regs) (kw : Nat × Nat) : Sha256Regs :=
  let t1 := (st.h + bigSigma1 st.e + sha256Ch st.e st.f st.g + kw.1 + kw.2) % 4294967296
  let t2 := (bigSigma0 st.a + sha256Maj st.a st.b st.c) % 4294967296
  { a := (t1 + t2) % 4294967296
    b := st.a
    c := st.b
    d := st.c
    e := (st.d + t1) % 4294967296
    f := st.e
    g := st.f
    h := st.g }

/-- Append one scheduled message word to the 16-word block schedule. -/
def extendScheduleOnce (ws : List Nat) : List Nat :=
  let n := ws.length
  ws ++ [(smallSigma1 (ws.getD (n - 2) 0) + ws.getD (n - 7) 0 +
          smallSigma0 (ws.getD (n - 15) 0) + ws.getD (n - 16) 0) % 4294967296]

def buildSchedule (ws : List Nat) : Nat → List Nat
  | 0 => ws
  | k + 1 => buildSchedule (extendScheduleOnce ws) k

/-- Group a byte list into big-endian 32-bit words; the first argument is fuel
bounding the recursion by the input length. -/
def bytesToWords : Nat → List Nat → List Nat
  | 0, _ => []
  | _ + 1, b0 :: b1 :: b2 :: b3 :: rest =>
      (((b0 * 256 + b1) * 256 + b2) * 256 + b3) :: bytesToWords rest.length rest
  | _ + 1, _ => []

/-- Split a byte list into 64-byte blocks; the first argument is fuel. -/
def toBlocks : Nat → List Nat → List (List Nat)
  | 0, _ => []
  | _ + 1, [] => []
  | fuel + 1, bs => bs.take 64 :: toBlocks fuel (bs.drop 64)

/-- Process one 64-byte block (given as bytes) into the running digest. -/
def processBlock (dg : Sha256Digest) (block : List Nat) : Sha256Digest :=
  let ws := buildSchedule (bytesToWords block.length block) 48
  let st := (sha256K.zip ws).foldl sha256Round (regsOfDigest dg)
  { d0 := (dg.d0 + st.a) % 4294967296
    d1 := (dg.d1 + st.b) % 4294967296
    d2 := (dg.d2 + st.c) % 4294967296
    d3 := (dg.d3 + st.d) % 4294967296
    d4 := (dg.d4 + st.e) % 4294967296
    d5 := (dg.d5 + st.f) % 4294967296
    d6 := (dg.d6 + st.g) % 4294967296
    d7 := (dg.d7 + st.h) % 4294967296 }

/-- Big-endian bytes of a 64-bit message length. -/
def word64BeBytes (n : Nat) : List Nat :=
  [(n >>> 56) % 256, (n >>> 48) % 256, (n >>> 40) % 256, (n >>> 32) % 256,
   (n >>> 24) % 256, (n >>> 16) % 256, (n >>> 8) % 256, n % 256]

/-- Big-endian bytes of a 32-bit state word. -/
def word32BeBytes (w : Nat) : List Nat :=
  [(w >>> 24) % 256, (w >>> 16) % 256, (w >>> 8) % 256, w % 256]

/-- SHA-256 padding: a 0x80 byte, zeros to 56 mod 64, and the bit length. -/
def padMessage (msg : List Nat) : List Nat :=
  msg ++ [128] ++ List.replicate ((119 - msg.length % 64) % 64) 0 ++
    word64BeBytes (8 * msg.length)

/-- The SHA-256 digest (32 bytes) of a byte sequence. -/
def sha256 (msg : List Nat) : List Nat :=
  let padded := padMessage msg
  let final := (toBlocks padded.length padded).foldl processBlock sha256InitialDigest
  word32BeBytes final.d0 ++ word32BeBytes final.d1 ++ word32BeBytes final.d2 ++
  word32BeBytes final.d3 ++ word32BeBytes final.d4 ++ word32BeBytes final.d5 ++
  word32BeBytes final.d6 ++ word32BeBytes final.d7

/-! ## Lowercase hex encoding (the hex crate) -/

def hexDigitTable : List Char := "0123456789abcdef".data

def hexDigitChar (n : Nat) : Char := hexDigitTable.getD n '0'

/-- Two lowercase hex characters per byte, as hex::encode does. -/
def hexChars : List Nat → List Char
  | [] => []
  | b :: bs => hexDigitChar (b / 16) :: hexDigitChar (b % 16) :: hexChars bs

def hexEncode (bs : List Nat) : String := String.mk (hexChars bs)

/-- A lowercase hexadecimal character: a decimal digit or one of a..f. -/
def isLowerHexChar (c : Char) : Bool :=
  c.isDigit || ('a' ≤ c && c ≤ 'f')

/-! ## utils.rs: hashing entry points -/

/-- Models utils::calculate_sha256 (src/utils.rs lines 9-29).  The file is
represented by its content: `none` when opening or reading fails, `some bytes`
otherwise.  The source hashes the file through a reading loop with a fixed
8192-byte buffer; the hasher state accumulates exactly the concatenation of
the chunks read, that is, the whole content, which is hashed here directly. -/
def calculate_sha256 (content : Option (List Nat)) : Except String String :=
  match content with
  | none => Except.error "Failed to open or read file"
  | some bytes => Except.ok (hexEncode (sha256 bytes))

/-- Models websocket_client::calculate_sha256_from_bytes
(src/websocket_client.rs lines 303-311). -/
def calculate_sha256_from_bytes (data : List Nat) : Except String String :=
  Except.ok (hexEncode (sha256 data))

/-! ## utils.rs: file name helpers -/

def lowercaseString (s : String) : String := String.mk (s.data.map Char.toLower)

/-- Split a character list on the path separator (structural recursion, so
that it evaluates inside the kernel). -/
def splitOnSlash : List Char → List (List Char)
  | [] => [[]]
  | c :: cs =>
    let rest := splitOnSlash cs
    if c = '/' then [] :: rest
    else
      match rest with
      | [] => [[c]]
      | r :: rs => (c :: r) :: rs

/-- The final path component, as Path::file_name. -/
def fileNameOf (path : String) : Option String :=
  match (splitOnSlash path.data).getLast? with
  | some last => if last.isEmpty then none else some (String.mk last)
  | none => none

/-- The extension of the final path component, as Path::extension: the part
after the last dot, none when there is no dot or the name starts with its
only dot. -/
def path_extension (path : String) : Option String :=
  match fileNameOf path with
  | none => none
  | some name =>
    match name.data.reverse.span (fun c => c ≠ '.') with
    | (_, []) => none
    | (revExt, _ :: revStem) =>
      if revStem.isEmpty then none else some (String.mk revExt.reverse)

/-- Models utils::is_font_file (src/utils.rs lines 31-41): lowercased
extension among the ten font extensions. -/
def is_font_file (path : String) : Bool :=
  match path_extension path with
  | some ext =>
    let e := lowercaseString ext
    e == "ttf" || e == "otf" || e == "woff" || e == "woff2" || e == "eot" ||
    e == "ttc" || e == "pfa" || e == "pfb" || e == "afm" || e == "pfm"
  | none => false

/-- Models utils::sanitize_filename (src/utils.rs lines 208-219).  The
character-class test char::is_alphanumeric comes from the Rust standard
library and is taken as a parameter; chars-map-collect is list map on the
character data. -/
def sanitize_filename (is_alphanumeric : Char → Bool) (filename : String) : String :=
  String.mk (filename.data.map (fun c =>
    if is_alphanumeric c || c == '.' || c == '-' || c == '_' then c else '_'))

/-! ## utils.rs: conflict resolution -/

/-- Models utils::ConflictResolution (src/utils.rs lines 221-226). -/
inductive ConflictResolution where
  | Overwrite
  | Rename
  | Skip
deriving Repr, DecidableEq

/-- Models utils::prompt_conflict_resolution (src/utils.rs lines 228-265).
In non-interactive mode the conflict is logged and Skip is returned before
any dialog runs.  In interactive mode the dialoguer Select answer is the
`selection` parameter (0 = Overwrite, 1 = Rename, 2 = Skip, default 2,
anything else Skip, as in the final match of the source). -/
def prompt_conflict_resolution (_filename _local_sha256 _remote_sha256 : String)
    (interactive : Bool) (selection : Nat) : Except String ConflictResolution :=
  if !interactive then Except.ok ConflictResolution.Skip
  else
    match selection with
    | 0 => Except.ok ConflictResolution.Overwrite
    | 1 => Except.ok ConflictResolution.Rename
    | 2 => Except.ok ConflictResolution.Skip
    | _ => Except.ok ConflictResolution.Skip

/-! ## Rename-to-unique-name loop (src/client.rs) -/

/-- Modelled from the spec: utils::generate_unique_filename is called from
src/client.rs (lines 141, 144, 285, 288) but its definition is not among the
provided sources.  Per the spec, a rename assigns a new name by appending a
numeric suffix, the concrete scenario mapping X.ttf with counter 1 to
X (1).ttf; so the suffix goes between the stem and the extension. -/
def generate_unique_filename (path : String) (counter : Nat) : String :=
  match path.data.reverse.span (fun c => c ≠ '.') with
  | (_, []) => path ++ " (" ++ toString counter ++ ")"
  | (revExt, _ :: revStem) =>
      String.mk revStem.reverse ++ " (" ++ toString counter ++ ")." ++
        String.mk revExt.reverse

/-- Models the counter loop of src/client.rs lines 140-145 and 284-289:
starting from `counter`, increment while the candidate name is taken.  The
source loop is bounded only by the namespace being finite; `fuel` bounds the
recursion, and when it runs out the last candidate is returned unchecked. -/
def find_unique_filename (taken : String → Bool) (path : String) :
    Nat → Nat → String
  | counter, 0 => generate_unique_filename path counter
  | counter, fuel + 1 =>
    let candidate := generate_unique_filename path counter
    if taken candidate then find_unique_filename taken path (counter + 1) fuel
    else candidate

/-! ## client.rs: upload pass -/

/-- Models client::FontInfo (src/client.rs lines 17-23). -/
structure ClientFontInfo where
  name : String
  size : Nat
  mime_type : String
  sha256 : String
deriving Repr, DecidableEq

/-- Outcome of the per-file body of client::upload_local_fonts for one local
font file. -/
inductive UploadAction where
  /-- Falls through to upload_font_file (fresh name, or Overwrite chosen). -/
  | upload (filename : String)
  /-- Server already has the name with the same SHA-256. -/
  | skipSame (filename : String)
  /-- Conflict resolved as Skip. -/
  | skipConflict (filename : String)
  /-- Conflict resolved as Rename: the unique name is computed and logged,
  then the TODO placeholder increments skipped and continues. -/
  | skipRename (filename : String) (new_filename : String)
  /-- calculate_sha256 failed for the local file. -/
  | skipHashError (filename : String)
  /-- prompt_conflict_resolution returned an error (propagated by the
  question-mark operator; unreachable with the modelled prompt). -/
  | promptError (filename : String)
deriving Repr, DecidableEq

/-- Models the per-file decision of client::upload_local_fonts
(src/client.rs lines 100-175): skip on equal hash, consult
prompt_conflict_resolution on differing hash, upload otherwise.
`server_font_map` is the name-to-SHA-256 map fetched from the server;
`local_sha256` is `none` when hashing the local file failed. -/
def upload_font_decision (server_font_map : List (String × String))
    (interactive : Bool) (selection : Nat)
    (filename : String) (local_sha256 : Option String) : UploadAction :=
  match local_sha256 with
  | none => UploadAction.skipHashError filename
  | some lh =>
    match server_font_map.lookup filename with
    | some remote_sha256 =>
      if lh = remote_sha256 then UploadAction.skipSame filename
      else
        match prompt_conflict_resolution filename lh remote_sha256 interactive selection with
        | Except.ok ConflictResolution.Overwrite => UploadAction.upload filename
        | Except.ok ConflictResolution.Rename =>
          UploadAction.skipRename filename
            (find_unique_filename (fun n => (server_font_map.lookup n).isSome)
              filename 1 (server_font_map.length + 1))
        | Except.ok ConflictResolution.Skip => UploadAction.skipConflict filename
        | Except.error _ => UploadAction.promptError filename
    | none => UploadAction.upload filename

/-! ## client.rs: download pass -/

/-- Outcome of the per-font body of client::download_server_fonts. -/
inductive DownloadAction where
  /-- Downloaded, re-hash matched the advertised SHA-256, file kept. -/
  | keep (name : String)
  /-- Downloaded, re-hash differed: error logged and file removed. -/
  | removeCorrupt (name : String)
  /-- Downloaded, re-hashing the written file failed: error logged, file
  not removed. -/
  | keepUnverified (name : String)
  /-- download_font_file returned an error. -/
  | downloadFailed (name : String)
  /-- Local file already has the advertised SHA-256. -/
  | skipSame (name : String)
  /-- Conflict resolved as Skip. -/
  | skipConflict (name : String)
  /-- Conflict resolved as Rename: unique name computed, then the TODO
  placeholder increments skipped and continues. -/
  | skipRename (name : String) (new_filename : String)
  /-- prompt_conflict_resolution returned an error (unreachable with the
  modelled prompt). -/
  | promptError (name : String)
deriving Repr, DecidableEq

/-- Models the block after download_font_file in client::download_server_fonts
(src/client.rs lines 312-338): on fetch success re-hash the written file and
keep it only on a match, removing it on a mismatch; a re-hash failure only
logs.  `rehash` is the calculate_sha256 result on the downloaded file. -/
def after_download (font : ClientFontInfo) (fetch_ok : Bool)
    (rehash : Option String) : DownloadAction :=
  if fetch_ok then
    match rehash with
    | some downloaded_sha256 =>
      if downloaded_sha256 = font.sha256 then DownloadAction.keep font.name
      else DownloadAction.removeCorrupt font.name
    | none => DownloadAction.keepUnverified font.name
  else DownloadAction.downloadFailed font.name

/-- Models the per-font body of client::download_server_fonts
(src/client.rs lines 255-339).  `local_state name` is `none` when no local
file of that name exists, `some none` when it exists but hashing it fails
(the source then proceeds to download), and `some (some h)` when it exists
with SHA-256 h.  `rename_fuel` bounds the rename counter loop. -/
def download_font_decision (local_state : String → Option (Option String))
    (interactive : Bool) (selection : Nat) (rename_fuel : Nat)
    (fetch_ok : Bool) (rehash : Option String)
    (font : ClientFontInfo) : DownloadAction :=
  match local_state font.name with
  | some (some local_sha256) =>
    if local_sha256 = font.sha256 then DownloadAction.skipSame font.name
    else
      match prompt_conflict_resolution font.name local_sha256 font.sha256 interactive selection with
      | Except.ok ConflictResolution.Overwrite => after_download font fetch_ok rehash
      | Except.ok ConflictResolution.Rename =>
        DownloadAction.skipRename font.name
          (find_unique_filename (fun n => (local_state n).isSome) font.name 1 rename_fuel)
      | Except.ok ConflictResolution.Skip => DownloadAction.skipConflict font.name
      | Except.error _ => DownloadAction.promptError font.name
  | some none => after_download font fetch_ok rehash
  | none => after_download font fetch_ok rehash

/-- Whether a download action denotes a download that was started at all
(the source reached download_font_file for this font). -/
def starts_download : DownloadAction → Bool
  | DownloadAction.keep _ => true
  | DownloadAction.removeCorrupt _ => true
  | DownloadAction.keepUnverified _ => true
  | DownloadAction.downloadFailed _ => true
  | _ => false

/-- Whether a download action denotes a download whose bytes arrived
(download_font_file succeeded and the file was written). -/
def completed_download : DownloadAction → Bool
  | DownloadAction.keep _ => true
  | DownloadAction.removeCorrupt _ => true
  | DownloadAction.keepUnverified _ => true
  | _ => false

/-! ## Transfer plan of a full sync (upload pass then download pass) -/

/-- A transfer of the reconciliation plan. -/
inductive PlanAction where
  | uploadT (name : String)
  | downloadT (name : String)
deriving Repr, DecidableEq

/-- The transfers initiated by the upload pass over the local inventory. -/
def upload_transfers (server_font_map : List (String × String))
    (interactive : Bool) (selection : Nat)
    (local_fonts : List (String × String)) : List PlanAction :=
  local_fonts.filterMap fun nf =>
    match upload_font_decision server_font_map interactive selection nf.1 (some nf.2) with
    | UploadAction.upload n => some (PlanAction.uploadT n)
    | _ => none

/-- The transfers initiated by the download pass over the remote inventory. -/
def download_transfers (local_state : String → Option (Option String))
    (interactive : Bool) (selection : Nat) (rename_fuel : Nat)
    (fetch_ok : String → Bool) (rehash : String → Option String)
    (fonts : List ClientFontInfo) : List PlanAction :=
  fonts.filterMap fun f =>
    if starts_download (download_font_decision local_state interactive selection
        rename_fuel (fetch_ok f.name) (rehash f.name) f)
    then some (PlanAction.downloadT f.name) else none

/-! ## websocket_client.rs: download_font -/

/-- Outcome of websocket_client::WebSocketClient::download_font. -/
inductive DownloadFontResult where
  /-- A local copy with the advertised SHA-256 already exists; no fetch. -/
  | skippedExisting
  /-- The HTTP fetch failed; nothing written. -/
  | httpError (msg : String)
  /-- Re-hashing the received bytes failed (unreachable: hashing bytes in
  memory is total); nothing written. -/
  | hashError (msg : String)
  /-- The recomputed SHA-256 differs from the advertised one: integrity
  failure returned, nothing written. -/
  | mismatch (expected got : String)
  /-- Verified bytes written to the download path and installed. -/
  | saved (bytes : List Nat)
deriving Repr, DecidableEq

/-- The part of websocket_client::download_font after the existing-file check
(src/websocket_client.rs lines 159-195): fetch, re-hash the received bytes,
fail before writing on a mismatch, write only a verified file. -/
def download_font_fetch (fetched : Except String (List Nat))
    (expected_sha256 : String) : DownloadFontResult :=
  match fetched with
  | Except.error e => DownloadFontResult.httpError e
  | Except.ok bytes =>
    match calculate_sha256_from_bytes bytes with
    | Except.error e => DownloadFontResult.hashError e
    | Except.ok downloaded_sha256 =>
      if downloaded_sha256 ≠ expected_sha256 then
        DownloadFontResult.mismatch expected_sha256 downloaded_sha256
      else DownloadFontResult.saved bytes

/-- Models websocket_client::WebSocketClient::download_font
(src/websocket_client.rs lines 146-196).  `existing` is the state of the
download-path file: `none` absent, `some none` present but unreadable,
`some (some h)` present with SHA-256 h (the source skips the fetch only when
h equals the advertised hash). -/
def download_font (existing : Option (Option String))
    (fetched : Except String (List Nat)) (expected_sha256 : String) :
    DownloadFontResult :=
  match existing with
  | some (some local_sha256) =>
    if local_sha256 = expected_sha256 then DownloadFontResult.skippedExisting
    else download_font_fetch fetched expected_sha256
  | _ => download_font_fetch fetched expected_sha256

/-! ## utils.rs: directory scan -/

/-- Models utils::FontInfo (src/utils.rs lines 101-107); the modification
time is a timestamp. -/
structure UtilsFontInfo where
  path : String
  sha256 : String
  size : Nat
  modified : Nat
deriving Repr, DecidableEq

/-- One walkdir entry of a directory walk together with the outcome that
scan_single_font would produce for it (reading metadata or hashing can
fail). -/
structure DirEntry where
  path : String
  is_file : Bool
  scan_result : Except String UtilsFontInfo
deriving Repr

/-- Models utils::scan_font_directory (src/utils.rs lines 62-84): a missing
directory yields an empty list; each font-typed file entry is scanned, a
scan failure is logged and skipped, and the function always returns Ok. -/
def scan_font_directory (dir_exists : Bool) (entries : List DirEntry) :
    Except String (List UtilsFontInfo) :=
  if !dir_exists then Except.ok []
  else Except.ok (entries.foldl
    (fun fonts e =>
      if e.is_file && is_font_file e.path then
        match e.scan_result with
        | Except.ok font_info => fonts ++ [font_info]
        | Except.error _ => fonts
      else fonts) [])

/-- Specification-side description of the scan result, for comparison with
scan_font_directory: the records of exactly the readable font files of the
walk, in walk order. -/
def readable_font_records (entries : List DirEntry) : List UtilsFontInfo :=
  entries.filterMap fun e =>
    if e.is_file && is_font_file e.path then
      match e.scan_result with
      | Except.ok font_info => some font_info
      | Except.error _ => none
    else none

/-- One watched directory of font_monitor::FontMonitor::scan_fonts. -/
structure WatchPath where
  path_exists : Bool
  entries : List DirEntry
deriving Repr

/-- Models font_monitor::FontMonitor::scan_fonts (src/font_monitor.rs lines
90-123): missing watch paths are warned about and skipped; per file, a scan
failure is logged and skipped; the collected records are also inserted into
the cache (the returned list carries the same records). -/
def scan_fonts (watch_paths : List WatchPath) : Except String (List UtilsFontInfo) :=
  Except.ok (watch_paths.foldl
    (fun fonts wp =>
      if !wp.path_exists then fonts
      else wp.entries.foldl
        (fun fonts e =>
          if e.is_file && is_font_file e.path then
            match e.scan_result with
            | Except.ok font_info => fonts ++ [font_info]
            | Except.error _ => fonts
          else fonts) fonts) [])

/-! ## font_monitor.rs: change watcher -/

/-- Models font_monitor::FontEvent (src/font_monitor.rs lines 15-20). -/
inductive FontEvent where
  | Added (path sha256 : String)
  | Modified (path sha256 : String)
  | Removed (path : String)
deriving Repr, DecidableEq

/-- Models font_monitor::FontInfo (src/font_monitor.rs lines 22-28). -/
structure MonitorFontInfo where
  path : String
  sha256 : String
  size : Nat
  modified : Nat
deriving Repr, DecidableEq

/-- The kind of a raw notify filesystem event. -/
inductive NotifyEventKind where
  | Create
  | Modify
  | Remove
  | Other
deriving Repr, DecidableEq

/-- HashMap::insert on the path-keyed cache. -/
def cacheInsert (cache : List (String × MonitorFontInfo)) (path : String)
    (info : MonitorFontInfo) : List (String × MonitorFontInfo) :=
  (path, info) :: cache.filter (fun e => e.1 ≠ path)

/-- HashMap::remove on the path-keyed cache. -/
def cacheRemove (cache : List (String × MonitorFontInfo)) (path : String) :
    List (String × MonitorFontInfo) :=
  cache.filter (fun e => e.1 ≠ path)

/-- Models font_monitor::FontMonitor::handle_file_event_sync
(src/font_monitor.rs lines 264-299), the handler that start_monitoring
(lines 140-181) installs in the notify watcher callback.  Create and Modify
notifications only log (the Create arm comment defers new files to the next
scan); only Remove mutates the cache and emits an event, and no re-hashing
happens at all.  Returns the updated cache and the emitted events. -/
def handle_file_event_sync (kind : NotifyEventKind) (paths : List String)
    (font_cache : List (String × MonitorFontInfo)) :
    List (String × MonitorFontInfo) × List FontEvent :=
  paths.foldl
    (fun acc path =>
      if !is_font_file path then acc
      else
        match kind with
        | NotifyEventKind.Create => acc
        | NotifyEventKind.Modify => acc
        | NotifyEventKind.Remove =>
          let cache := cacheRemove acc.1 path
          match fileNameOf path with
          | some _ => (cache, acc.2 ++ [FontEvent.Removed path])
          | none => (cache, acc.2)
        | NotifyEventKind.Other => acc)
    (font_cache, [])

/-- Models font_monitor::FontMonitor::handle_file_event (src/font_monitor.rs
lines 183-262), the async re-hash-before-emit handler; it is defined in the
source but never called (start_monitoring wires handle_file_event_sync
instead).  `scan_single_font` gives the re-hash outcome per path (`none`
when reading or hashing fails, which is treated as no event). -/
def handle_file_event (kind : NotifyEventKind) (paths : List String)
    (scan_single_font : String → Option MonitorFontInfo)
    (font_cache : List (String × MonitorFontInfo)) :
    List (String × MonitorFontInfo) × List FontEvent :=
  paths.foldl
    (fun acc path =>
      if !is_font_file path then acc
      else
        match kind with
        | NotifyEventKind.Create =>
          match scan_single_font path with
          | some font_info =>
            (cacheInsert acc.1 path font_info,
             acc.2 ++ [FontEvent.Added path font_info.sha256])
          | none => acc
        | NotifyEventKind.Modify =>
          match acc.1.lookup path with
          | some existing_info =>
            match scan_single_font path with
            | some font_info =>
              if font_info.sha256 ≠ existing_info.sha256 then
                (cacheInsert acc.1 path font_info,
                 acc.2 ++ [FontEvent.Modified path font_info.sha256])
              else acc
            | none => acc
          | none =>
            match scan_single_font path with
            | some font_info =>
              (cacheInsert acc.1 path font_info,
               acc.2 ++ [FontEvent.Added path font_info.sha256])
            | none => acc
        | NotifyEventKind.Remove =>
          (cacheRemove acc.1 path, acc.2 ++ [FontEvent.Removed path])
        | NotifyEventKind.Other => acc)
    (font_cache, [])

/-! ## websocket_server.rs: broadcast hub sessions and heartbeats -/

/-- Models websocket_server::FontInfo (src/websocket_server.rs lines 48-54). -/
structure WsFontInfo where
  filename : String
  sha256 : String
  size : Nat
  timestamp : Nat
deriving Repr, DecidableEq

/-- Models websocket_server::WebSocketMessage (src/websocket_server.rs lines
14-46). -/
inductive WebSocketMessage where
  | FontAdded (filename sha256 : String) (size : Nat)
  | FontModified (filename sha256 : String) (size : Nat)
  | FontRemoved (filename : String)
  | FontListRequest
  | FontListResponse (fonts : List WsFontInfo)
  | SyncRequest (client_id : String)
  | SyncComplete (client_id : String) (success : Bool) (message : String)
  | Heartbeat
  | Ack (message_id : String)
deriving Repr

/-- Models websocket_server::ClientInfo (src/websocket_server.rs lines
56-61); the Instant in last_heartbeat is a time in seconds. -/
structure Session where
  client_id : String
  last_heartbeat : Nat
deriving Repr, DecidableEq

/-- Models websocket_server::WebSocketServer::handle_client_message
(src/websocket_server.rs lines 251-298): returns the direct replies to the
peer and the messages broadcast to all sessions.  The Heartbeat arm (whose
comment reads Update client heartbeat) only logs; no received message
touches the session registry or last_heartbeat. -/
def handle_client_message (msg : WebSocketMessage) :
    List WebSocketMessage × List WebSocketMessage :=
  match msg with
  | WebSocketMessage.FontListRequest =>
    ([WebSocketMessage.FontListResponse []], [])
  | WebSocketMessage.Heartbeat => ([], [])
  | WebSocketMessage.SyncRequest client_id =>
    ([WebSocketMessage.SyncComplete client_id true "Sync started"], [])
  | other => ([], [other])

/-- One wakeup of the per-connection select loop of
websocket_server::WebSocketServer::handle_connection, with the time at which
it fires. -/
inductive ConnEvent where
  /-- A text frame parsed into a WebSocketMessage. -/
  | recvText (now : Nat) (msg : WebSocketMessage)
  /-- A pong frame: the only place last_heartbeat is updated. -/
  | recvPong (now : Nat)
  /-- A close frame: the loop breaks. -/
  | recvClose (now : Nat)
  /-- The 30-second heartbeat interval tick: a Heartbeat probe is sent, then
  the loop breaks when more than 120 seconds passed since last_heartbeat. -/
  | heartbeatTick (now : Nat)
deriving Repr

/-- Models one iteration of the select loop of handle_connection
(src/websocket_server.rs lines 157-242).  Returns the session after the
event (`none` when the loop breaks, upon which the session is removed from
the registry) and the frames sent to the peer. -/
def handle_connection_step (s : Session) :
    ConnEvent → Option Session × List WebSocketMessage
  | ConnEvent.recvText _ msg =>
    let (replies, _broadcasts) := handle_client_message msg
    (some s, replies)
  | ConnEvent.recvPong now => (some { s with last_heartbeat := now }, [])
  | ConnEvent.recvClose _ => (none, [])
  | ConnEvent.heartbeatTick now =>
    if now - s.last_heartbeat > 120 then (none, [WebSocketMessage.Heartbeat])
    else (some s, [WebSocketMessage.Heartbeat])

/-- Run the select loop over a trace of wakeups; once the loop breaks the
session stays removed. -/
def runConnection (s : Session) (events : List ConnEvent) : Option Session :=
  events.foldl
    (fun acc e =>
      match acc with
      | none => none
      | some st => (handle_connection_step st e).1)
    (some s)

/-- Models one sweep of websocket_server::WebSocketServer::heartbeat_checker
(src/websocket_server.rs lines 300-328), which runs every 60 seconds:
collect every registered session whose last_heartbeat lies more than 180
seconds in the past, then remove the collected addresses from the registry. -/
def heartbeat_checker_sweep (now : Nat)
    (clients : List (String × Session)) : List (String × Session) :=
  let disconnected_clients :=
    (clients.filter (fun c => 180 < now - c.2.last_heartbeat)).map Prod.fst
  clients.filter (fun c => !disconnected_clients.contains c.1)

/-! ## Helper lemmas -/

theorem hexDigitChar_mem (n : Nat) : hexDigitChar n ∈ hexDigitTable := by
  unfold hexDigitChar
  rcases Nat.lt_or_ge n hexDigitTable.length with h | h
  · rw [List.getD_eq_getElem _ _ h]
    exact List.getElem_mem h
  · rw [List.getD_eq_default _ _ h]
    decide

theorem isLowerHexChar_hexDigitChar (n : Nat) :
    isLowerHexChar (hexDigitChar n) = true := by
  have htab : ∀ c ∈ hexDigitTable, isLowerHexChar c = true := by decide
  exact htab _ (hexDigitChar_mem n)

theorem hexChars_length (bs : List Nat) : (hexChars bs).length = 2 * bs.length := by
  induction bs with
  | nil => rfl
  | cons b bs ih =>
    simp only [hexChars, List.length_cons, ih]
    ring

theorem hexChars_all_lower_hex (bs : List Nat) :
    (hexChars bs).all isLowerHexChar = true := by
  induction bs with
  | nil => rfl
  | cons b bs ih =>
    simp [hexChars, List.all_cons, isLowerHexChar_hexDigitChar, ih]

theorem sha256_length (msg : List Nat) : (sha256 msg).length = 32 := by
  simp [sha256, word32BeBytes]

theorem after_download_keep_iff (font : ClientFontInfo) (got : String) :
    (after_download font true (some got) = DownloadAction.keep font.name ↔
      got = font.sha256) ∧
    (got ≠ font.sha256 →
      after_download font true (some got) = DownloadAction.removeCorrupt font.name) := by
  unfold after_download
  by_cases hg : got = font.sha256 <;> simp [hg]

theorem starts_download_after_download (font : ClientFontInfo) (fetch_ok : Bool)
    (rehash : Option String) :
    starts_download (after_download font fetch_ok rehash) = true := by
  unfold after_download
  cases fetch_ok with
  | false => rfl
  | true =>
    cases rehash with
    | none => rfl
    | some d => by_cases hd : d = font.sha256 <;> simp [hd, starts_download]

theorem download_font_decision_shape (local_state : String → Option (Option String))
    (interactive : Bool) (selection rename_fuel : Nat) (fetch_ok : Bool)
    (rehash : Option String) (font : ClientFontInfo) :
    download_font_decision local_state interactive selection rename_fuel
        fetch_ok rehash font = after_download font fetch_ok rehash ∨
    completed_download (download_font_decision local_state interactive selection
        rename_fuel fetch_ok rehash font) = false := by
  unfold download_font_decision
  rcases h : local_state font.name with _ | oh
  · left; rfl
  · rcases oh with _ | lh
    · left; rfl
    · by_cases he : lh = font.sha256
      · right; simp [he, completed_download]
      · cases hp : prompt_conflict_resolution font.name lh font.sha256 interactive selection with
        | error e => right; simp [he, hp, completed_download]
        | ok r =>
          cases r with
          | Overwrite => left; simp [he, hp]
          | Rename => right; simp [he, hp, completed_download]
          | Skip => right; simp [he, hp, completed_download]

theorem scan_fold_eq (entries : List DirEntry) (acc : List UtilsFontInfo) :
    entries.foldl
      (fun fonts e =>
        if e.is_file && is_font_file e.path then
          match e.scan_result with
          | Except.ok font_info => fonts ++ [font_info]
          | Except.error _ => fonts
        else fonts) acc = acc ++ readable_font_records entries := by
  induction entries generalizing acc with
  | nil => simp [readable_font_records]
  | cons e rest ih =>
    simp only [List.foldl_cons]
    cases hc : (e.is_file && is_font_file e.path) with
    | false =>
      have hc' : ¬(e.is_file = true ∧ is_font_file e.path = true) := by
        intro hand
        simp [hand.1, hand.2] at hc
      rw [if_neg (show ¬(false = true) by simp)]
      rw [ih]
      simp [readable_font_records, List.filterMap_cons, hc']
    | true =>
      have hc' : e.is_file = true ∧ is_font_file e.path = true :=
        Bool.and_eq_true _ _ ▸ hc
      rw [if_pos (show true = true from rfl)]
      cases hr : e.scan_result with
      | ok fi =>
        show List.foldl _ (acc ++ [fi]) rest = _
        rw [ih]
        simp [readable_font_records, List.filterMap_cons, hc'.1, hc'.2, hr]
      | error msg =>
        show List.foldl _ acc rest = _
        rw [ih]
        simp [readable_font_records, List.filterMap_cons, hc'.1, hc'.2, hr]

theorem scan_fonts_fold_eq (watch_paths : List WatchPath) (acc : List UtilsFontInfo) :
    watch_paths.foldl
      (fun fonts wp =>
        if !wp.path_exists then fonts
        else wp.entries.foldl
          (fun fonts e =>
            if e.is_file && is_font_file e.path then
              match e.scan_result with
              | Except.ok font_info => fonts ++ [font_info]
              | Except.error _ => fonts
            else fonts) fonts) acc =
      acc ++ watch_paths.foldr
        (fun wp r =>
          (if wp.path_exists then readable_font_records wp.entries else []) ++ r) [] := by
  induction watch_paths generalizing acc with
  | nil => simp
  | cons wp rest ih =>
    simp only [List.foldl_cons, List.foldr_cons]
    cases hw : wp.path_exists with
    | false =>
      show List.foldl _ acc rest = _
      rw [ih]
      simp
    | true =>
      show List.foldl _ (List.foldl _ acc wp.entries) rest = _
      rw [scan_fold_eq, ih]
      simp

/-! ## Claim theorems -/

/-- Claim C8: every directory scan skips files that cannot be read or hashed
and continues with the rest: scan_font_directory always returns Ok with the
records of exactly the readable font files (over any walk of entries, also
when the directory is missing); inserting an unreadable font entry anywhere
in the walk leaves the result unchanged; and scan_fonts likewise always
returns Ok with the readable records of each existing watch path. -/
theorem scan_skips_unreadable_files :
    (∀ (dir_exists : Bool) (entries : List DirEntry),
      scan_font_directory dir_exists entries =
        Except.ok (if dir_exists then readable_font_records entries else []))
    ∧ (∀ (pre post : List DirEntry) (p msg : String),
      scan_font_directory true (pre ++ ⟨p, true, Except.error msg⟩ :: post) =
        scan_font_directory true (pre ++ post))
    ∧ (∀ (watch_paths : List WatchPath),
      scan_fonts watch_paths =
        Except.ok (watch_paths.foldr
          (fun wp r =>
            (if wp.path_exists then readable_font_records wp.entries else []) ++ r) [])) := by
  have hmain : ∀ (dir_exists : Bool) (entries : List DirEntry),
      scan_font_directory dir_exists entries =
        Except.ok (if dir_exists then readable_font_records entries else []) := by
    intro dir_exists entries
    cases dir_exists with
    | false => rfl
    | true =>
      show Except.ok _ = _
      rw [scan_fold_eq]
      simp
  refine ⟨hmain, ?_, ?_⟩
  · intro pre post p msg
    rw [hmain, hmain]
    have hrecords : ∀ (l : List DirEntry),
        readable_font_records (⟨p, true, Except.error msg⟩ :: l) =
          readable_font_records l := by
      intro l
      unfold readable_font_records
      rw [List.filterMap_cons]
      cases hf : is_font_file p <;> simp [hf]
    unfold readable_font_records
    simp only [List.filterMap_append]
    rw [show List.filterMap _ (⟨p, true, Except.error msg⟩ :: post) =
          readable_font_records (⟨p, true, Except.error msg⟩ :: post) from rfl,
        hrecords]
    rfl
  · intro watch_paths
    show Except.ok _ = _
    rw [scan_fonts_fold_eq]
    simp

/-- Claim C9: sanitize_filename maps every character that is not alphanumeric
and not one of dot, dash, underscore to an underscore, so every output
character is alphanumeric or one of those three, and the output has exactly
as many characters as the input; on the ASCII example from the repository
the result is My_Font__v1_.ttf. -/
theorem sanitize_filename_charset_and_length :
    (∀ (is_alphanumeric : Char → Bool) (filename : String),
      ((sanitize_filename is_alphanumeric filename).data.all
          (fun c => is_alphanumeric c || c == '.' || c == '-' || c == '_')) = true
      ∧ (sanitize_filename is_alphanumeric filename).length = filename.length)
    ∧ sanitize_filename Char.isAlphanum "My Font (v1).ttf" = "My_Font__v1_.ttf" := by
  refine ⟨?_, by decide⟩
  intro is_alphanumeric filename
  constructor
  · show (filename.data.map _).all _ = true
    rw [List.all_map]
    rw [List.all_eq_true]
    intro c _
    simp only [Function.comp_apply]
    by_cases hc : (is_alphanumeric c || c == '.' || c == '-' || c == '_') = true
    · rw [if_pos hc]
      exact hc
    · rw [if_neg hc]
      simp
  · show (filename.data.map _).length = filename.data.length
    rw [List.length_map]

/-- Claim C10: both content-hash functions produce the lowercase hex encoding
of a SHA-256 digest: whenever calculate_sha256 succeeds, and for every input
of calculate_sha256_from_bytes, the resulting string has exactly 64
characters, each a decimal digit or a lowercase letter a through f. -/
theorem sha256_digest_is_64_lowercase_hex :
    (∀ (data : List Nat) (s : String),
      calculate_sha256_from_bytes data = Except.ok s →
      s.length = 64 ∧ s.data.all isLowerHexChar = true)
    ∧ (∀ (content : Option (List Nat)) (s : String),
      calculate_sha256 content = Except.ok s →
      s.length = 64 ∧ s.data.all isLowerHexChar = true) := by
  have hhex : ∀ (bytes : List Nat),
      (hexEncode (sha256 bytes)).length = 64 ∧
        (hexEncode (sha256 bytes)).data.all isLowerHexChar = true := by
    intro bytes
    constructor
    · show (hexChars (sha256 bytes)).length = 64
      rw [hexChars_length, sha256_length]
    · exact hexChars_all_lower_hex _
  constructor
  · intro data s h
    have hs : s = hexEncode (sha256 data) := by
      simpa [calculate_sha256_from_bytes] using h.symm
    rw [hs]
    exact hhex data
  · intro content s h
    cases content with
    | none => simp [calculate_sha256] at h
    | some bytes =>
      have hs : s = hexEncode (sha256 bytes) := by
        simpa [calculate_sha256] using h.symm
      rw [hs]
      exact hhex bytes

/-- Witness for C10 at a concrete input: hashing the empty byte sequence
succeeds and the digest string is 64 lowercase hex characters. -/
theorem sha256_digest_is_64_lowercase_hex_witness :
    (hexEncode (sha256 [])).length = 64 ∧
      (hexEncode (sha256 [])).data.all isLowerHexChar = true :=
  sha256_digest_is_64_lowercase_hex.1 [] (hexEncode (sha256 [])) rfl

/-- Claim C1: the reconciliation decision per name follows the spec: a name
absent from the server map is uploaded; a name present on both sides with
equal hashes is skipped by the upload pass and by the download pass; a font
with no local file is downloaded; and on the concrete scenario with local
Arial.ttf = H1 and remote Arial.ttf = H1, Comic.ttf = H2, the transfers of
the full sync are exactly a download of Comic.ttf, whatever the policy and
the transfer outcomes. -/
theorem reconcile_upload_download_skip :
    (∀ (server_font_map : List (String × String)) (interactive : Bool)
        (selection : Nat) (filename lh : String),
      server_font_map.lookup filename = none →
      upload_font_decision server_font_map interactive selection filename (some lh) =
        UploadAction.upload filename)
    ∧ (∀ (server_font_map : List (String × String)) (interactive : Bool)
        (selection : Nat) (filename lh : String),
      server_font_map.lookup filename = some lh →
      upload_font_decision server_font_map interactive selection filename (some lh) =
        UploadAction.skipSame filename)
    ∧ (∀ (local_state : String → Option (Option String)) (interactive : Bool)
        (selection rename_fuel : Nat) (fetch_ok : Bool) (rehash : Option String)
        (font : ClientFontInfo),
      local_state font.name = none →
      starts_download (download_font_decision local_state interactive selection
        rename_fuel fetch_ok rehash font) = true)
    ∧ (∀ (local_state : String → Option (Option String)) (interactive : Bool)
        (selection rename_fuel : Nat) (fetch_ok : Bool) (rehash : Option String)
        (font : ClientFontInfo),
      local_state font.name = some (some font.sha256) →
      download_font_decision local_state interactive selection rename_fuel
        fetch_ok rehash font = DownloadAction.skipSame font.name)
    ∧ (∀ (interactive : Bool) (selection : Nat) (fetch_ok : String → Bool)
        (rehash : String → Option String),
      upload_transfers [("Arial.ttf", "H1"), ("Comic.ttf", "H2")] interactive selection
          [("Arial.ttf", "H1")] ++
        download_transfers (fun n => if n == "Arial.ttf" then some (some "H1") else none)
          interactive selection 1 fetch_ok rehash
          [⟨"Arial.ttf", 1, "font/ttf", "H1"⟩, ⟨"Comic.ttf", 2, "font/ttf", "H2"⟩] =
        [PlanAction.downloadT "Comic.ttf"]) := by
  refine ⟨?_, ?_, ?_, ?_, ?_⟩
  · intro server_font_map interactive selection filename lh h
    unfold upload_font_decision
    rw [h]
  · intro server_font_map interactive selection filename lh h
    unfold upload_font_decision
    rw [h]
    simp
  · intro local_state interactive selection rename_fuel fetch_ok rehash font h
    unfold download_font_decision
    rw [h]
    exact starts_download_after_download font fetch_ok rehash
  · intro local_state interactive selection rename_fuel fetch_ok rehash font h
    unfold download_font_decision
    rw [h]
    simp
  · intro interactive selection fetch_ok rehash
    show List.filterMap _ _ ++ List.filterMap _ _ = _
    rw [List.filterMap_cons, List.filterMap_cons, List.filterMap_cons, List.filterMap_nil]
    show [] ++ _ = _
    have hcomic : starts_download (download_font_decision
        (fun n => if n == "Arial.ttf" then some (some "H1") else none)
        interactive selection 1 (fetch_ok "Comic.ttf") (rehash "Comic.ttf")
        ⟨"Comic.ttf", 2, "font/ttf", "H2"⟩) = true :=
      starts_download_after_download _ _ _
    rw [if_pos hcomic]
    rfl

/-- Witness for C1 at concrete inputs: a locally-new font is uploaded, an
equal-hash font is skipped on upload, a font with no local copy starts a
download, and an equal-hash font is skipped on download. -/
theorem reconcile_upload_download_skip_witness :
    upload_font_decision [("B.ttf", "H2")] false 0 "A.ttf" (some "H1") =
      UploadAction.upload "A.ttf" ∧
    upload_font_decision [("A.ttf", "H1")] false 0 "A.ttf" (some "H1") =
      UploadAction.skipSame "A.ttf" ∧
    starts_download (download_font_decision (fun _ => none) false 0 1 true none
      ⟨"C.ttf", 1, "font/ttf", "H3"⟩) = true ∧
    download_font_decision (fun _ => some (some "H3")) false 0 1 true none
      ⟨"C.ttf", 1, "font/ttf", "H3"⟩ = DownloadAction.skipSame "C.ttf" :=
  ⟨reconcile_upload_download_skip.1 [("B.ttf", "H2")] false 0 "A.ttf" "H1" rfl,
   reconcile_upload_download_skip.2.1 [("A.ttf", "H1")] false 0 "A.ttf" "H1" rfl,
   reconcile_upload_download_skip.2.2.1 (fun _ => none) false 0 1 true none
     ⟨"C.ttf", 1, "font/ttf", "H3"⟩ rfl,
   reconcile_upload_download_skip.2.2.2.1 (fun _ => some (some "H3")) false 0 1 true none
     ⟨"C.ttf", 1, "font/ttf", "H3"⟩ rfl⟩

/-- Claim C3: with the non-interactive policy every conflict resolves to
Skip: prompt_conflict_resolution with interactive = false returns Skip for
every input, and a name with differing local and remote hashes is neither
uploaded nor downloaded nor overwritten, in either pass. -/
theorem non_interactive_conflicts_always_skip :
    (∀ (filename lh rh : String) (selection : Nat),
      prompt_conflict_resolution filename lh rh false selection =
        Except.ok ConflictResolution.Skip)
    ∧ (∀ (server_font_map : List (String × String)) (selection : Nat)
        (filename lh rh : String),
      server_font_map.lookup filename = some rh → lh ≠ rh →
      upload_font_decision server_font_map false selection filename (some lh) =
        UploadAction.skipConflict filename)
    ∧ (∀ (local_state : String → Option (Option String)) (selection rename_fuel : Nat)
        (fetch_ok : Bool) (rehash : Option String) (font : ClientFontInfo) (lh : String),
      local_state font.name = some (some lh) → lh ≠ font.sha256 →
      download_font_decision local_state false selection rename_fuel
        fetch_ok rehash font = DownloadAction.skipConflict font.name) := by
  refine ⟨?_, ?_, ?_⟩
  · intro filename lh rh selection
    rfl
  · intro server_font_map selection filename lh rh h hne
    unfold upload_font_decision
    rw [h]
    simp [hne, prompt_conflict_resolution]
  · intro local_state selection rename_fuel fetch_ok rehash font lh h hne
    unfold download_font_decision
    rw [h]
    simp [hne, prompt_conflict_resolution]

/-- Witness for C3 at a concrete conflicting input: differing hashes in
non-interactive mode skip in both passes. -/
theorem non_interactive_conflicts_always_skip_witness :
    prompt_conflict_resolution "A.ttf" "H1" "H2" false 7 =
      Except.ok ConflictResolution.Skip ∧
    upload_font_decision [("A.ttf", "H2")] false 0 "A.ttf" (some "H1") =
      UploadAction.skipConflict "A.ttf" ∧
    download_font_decision (fun _ => some (some "H1")) false 0 1 true none
      ⟨"A.ttf", 1, "font/ttf", "H2"⟩ = DownloadAction.skipConflict "A.ttf" :=
  ⟨non_interactive_conflicts_always_skip.1 "A.ttf" "H1" "H2" 7,
   non_interactive_conflicts_always_skip.2.1 [("A.ttf", "H2")] 0 "A.ttf" "H1" "H2"
     rfl (by decide),
   non_interactive_conflicts_always_skip.2.2 (fun _ => some (some "H1")) 0 1 true none
     ⟨"A.ttf", 1, "font/ttf", "H2"⟩ "H1" rfl (by decide)⟩

/-- Claim C7, observed at the failing input: resolving the X.ttf conflict as
Rename computes the fresh name X (1).ttf exactly as the claim describes (the
counter loop stops at the first name free in the relevant namespace), but in
both passes the resulting action is a skip that transfers nothing — the
transfer-under-the-new-name step is a TODO placeholder in the source. -/
theorem rename_unique_name_computed_but_not_transferred :
    upload_font_decision [("X.ttf", "H2")] true 1 "X.ttf" (some "H1") =
      UploadAction.skipRename "X.ttf" "X (1).ttf" ∧
    [("X.ttf", "H2")].lookup "X (1).ttf" = none ∧
    download_font_decision (fun n => if n == "X.ttf" then some (some "H1") else none)
      true 1 2 true (some "H2") ⟨"X.ttf", 1, "font/ttf", "H2"⟩ =
      DownloadAction.skipRename "X.ttf" "X (1).ttf" ∧
    (fun n => if n == "X.ttf" then some (some "H1") else none) "X (1).ttf" = none := by
  refine ⟨by decide, by decide, by decide, by decide⟩

/-- Claim C2, observed at the failing input: after a completed download of
F.ttf with advertised hash HB whose post-write re-hash fails with an IO
error, the per-font body of download_server_fonts keeps the written file
unverified — it is not removed and no integrity failure is surfaced, only an
error is logged — although the claim allows keeping the file only when the
recomputed hash equals the advertised one.  When the re-hash does succeed
with a differing value the file is removed as corrupt, and the in-memory
WebSocket client path rejects mismatched bytes before anything is written. -/
theorem rehash_failure_keeps_unverified_file :
    download_font_decision (fun _ => none) false 0 1 true none
        ⟨"F.ttf", 1, "font/ttf", "HB"⟩ = DownloadAction.keepUnverified "F.ttf" ∧
    completed_download (download_font_decision (fun _ => none) false 0 1 true none
        ⟨"F.ttf", 1, "font/ttf", "HB"⟩) = true ∧
    download_font_decision (fun _ => none) false 0 1 true (some "HA")
        ⟨"F.ttf", 1, "font/ttf", "HB"⟩ = DownloadAction.removeCorrupt "F.ttf" ∧
    download_font none (Except.ok []) "zz" =
      DownloadFontResult.mismatch "zz" (hexEncode (sha256 [])) := by
  refine ⟨by decide, by decide, by decide, by decide⟩

/-- Claim C4, observed at the failing input: the handler that monitoring
actually installs, handle_file_event_sync, performs no re-hash and emits no
event for Create and Modify notifications on a font path (it only logs), so
a new font file A.ttf with an empty cache produces no Added event and a
modified font file produces no Modified event; the unused async handler
handle_file_event implements the re-hash rule the claim describes and emits
Added with the new hash on the same input. -/
theorem sync_handler_emits_no_added_or_modified :
    handle_file_event_sync NotifyEventKind.Create ["A.ttf"] [] = ([], []) ∧
    handle_file_event_sync NotifyEventKind.Modify ["A.ttf"]
        [("A.ttf", ⟨"A.ttf", "H0", 10, 0⟩)] =
      ([("A.ttf", ⟨"A.ttf", "H0", 10, 0⟩)], []) ∧
    handle_file_event NotifyEventKind.Create ["A.ttf"]
        (fun p => if p == "A.ttf" then some ⟨"A.ttf", "H1", 10, 0⟩ else none) [] =
      ([("A.ttf", ⟨"A.ttf", "H1", 10, 0⟩)], [FontEvent.Added "A.ttf" "H1"]) := by
  refine ⟨by decide, by decide, by decide⟩

/-- Claim C5, observed at the failing input: handle_client_message leaves
the session (and its last_heartbeat) unchanged for every received Heartbeat
text message, so a session connected at time 0 that answers every 30-second
probe with a Heartbeat message is evicted at the 150-second probe (the 120
second check fails since last_heartbeat never moved), while the same trace
with Pong frames (the only update site) survives. -/
theorem heartbeat_reply_does_not_refresh_session :
    (∀ (s : Session) (now : Nat),
      (handle_connection_step s (ConnEvent.recvText now WebSocketMessage.Heartbeat)).1 =
        some s) ∧
    runConnection ⟨"client_1", 0⟩
      [ConnEvent.heartbeatTick 30, ConnEvent.recvText 31 WebSocketMessage.Heartbeat,
       ConnEvent.heartbeatTick 60, ConnEvent.recvText 61 WebSocketMessage.Heartbeat,
       ConnEvent.heartbeatTick 90, ConnEvent.recvText 91 WebSocketMessage.Heartbeat,
       ConnEvent.heartbeatTick 120, ConnEvent.recvText 121 WebSocketMessage.Heartbeat,
       ConnEvent.heartbeatTick 150] = none ∧
    runConnection ⟨"client_1", 0⟩
      [ConnEvent.heartbeatTick 30, ConnEvent.recvPong 31,
       ConnEvent.heartbeatTick 60, ConnEvent.recvPong 61,
       ConnEvent.heartbeatTick 90, ConnEvent.recvPong 91,
       ConnEvent.heartbeatTick 120, ConnEvent.recvPong 121,
       ConnEvent.heartbeatTick 150] = some ⟨"client_1", 121⟩ := by
  refine ⟨fun s now => rfl, by decide, by decide⟩

/-- Claim C6: sessions with stale liveness are removed.  The per-connection
loop breaks (and the session is removed from the registry) at a probe tick
when more than 120 seconds passed since last_heartbeat, and one sweep of the
periodic reaper removes every registered session whose last_heartbeat lies
more than 180 seconds in the past. -/
theorem stale_sessions_are_removed :
    (∀ (s : Session) (now : Nat), 120 < now - s.last_heartbeat →
      (handle_connection_step s (ConnEvent.heartbeatTick now)).1 = none)
    ∧ (∀ (now : Nat) (clients : List (String × Session)) (addr : String)
        (s s' : Session),
      (addr, s) ∈ clients → 180 < now - s.last_heartbeat →
      (addr, s') ∉ heartbeat_checker_sweep now clients) := by
  constructor
  · intro s now h
    show (if 120 < now - s.last_heartbeat then
            ((none : Option Session), [WebSocketMessage.Heartbeat])
          else (some s, [WebSocketMessage.Heartbeat])).1 = none
    rw [if_pos h]
  · intro now clients addr s s' hmem hstale hmem'
    unfold heartbeat_checker_sweep at hmem'
    have hmem'' := (List.mem_filter.mp hmem').2
    have haddr : addr ∈ (clients.filter
        (fun c => 180 < now - c.2.last_heartbeat)).map Prod.fst :=
      List.mem_map.mpr ⟨(addr, s),
        List.mem_filter.mpr ⟨hmem, by simpa using hstale⟩, rfl⟩
    simp only [Bool.not_eq_true'] at hmem''
    exact absurd ((List.elem_eq_true_of_mem haddr).symm.trans hmem'') (by simp)

/-- Witness for C6 at concrete inputs: a session last seen at time 0 is
disconnected by the probe tick at time 121, and removed by a reaper sweep at
time 200. -/
theorem stale_sessions_are_removed_witness :
    (handle_connection_step ⟨"c1", 0⟩ (ConnEvent.heartbeatTick 121)).1 = none ∧
    ("a1", Session.mk "c1" 0) ∉ heartbeat_checker_sweep 200 [("a1", ⟨"c1", 0⟩)] :=
  ⟨stale_sessions_are_removed.1 ⟨"c1", 0⟩ 121 (by decide),
   stale_sessions_are_removed.2 200 [("a1", ⟨"c1", 0⟩)] "a1" ⟨"c1", 0⟩ ⟨"c1", 0⟩
     (by simp) (by decide)⟩
